import Mathlib

/-!
Verification of the azure-cli-extensions sources: the azuremonitormetrics
helper (`helper.py`), the load-test argument validators (`validators.py`),
and the connectedvmware vendored-SDK LRO operations
(`_azure_arc_vmware_management_service_api_operations.py`).

Python strings are modelled as Lean `String`/`List Char`; Python `dict`s
coming from `json.loads` as association lists inside a `Json` inductive;
fallible Python code (raising) as `Except`.
-/

namespace AzExt

/-! ## Python string primitives -/

/-- The whitespace set of Python `str.strip()` (Unicode whitespace:
U+0009-U+000D, U+001C-U+001F, space, U+0085, U+00A0, U+1680,
U+2000-U+200A, U+2028, U+2029, U+202F, U+205F, U+3000). -/
def pyWhitespace (c : Char) : Bool :=
  decide ((9 ≤ c.toNat ∧ c.toNat ≤ 13) ∨ (28 ≤ c.toNat ∧ c.toNat ≤ 31) ∨
    c.toNat = 32 ∨ c.toNat = 133 ∨ c.toNat = 160 ∨ c.toNat = 5760 ∨
    (8192 ≤ c.toNat ∧ c.toNat ≤ 8202) ∨ c.toNat = 8232 ∨ c.toNat = 8233 ∨
    c.toNat = 8239 ∨ c.toNat = 8287 ∨ c.toNat = 12288)

/-- ASCII lower-casing of one character, as Python `str.lower()` does on ASCII. -/
def pyLowerChar (c : Char) : Char :=
  if 'A' ≤ c ∧ c ≤ 'Z' then Char.ofNat (c.toNat + 32) else c

/-- Python `str.strip()` on a character list. -/
def pyStripList (cs : List Char) : List Char :=
  ((cs.dropWhile pyWhitespace).reverse.dropWhile pyWhitespace).reverse

/-- Python `str.strip()`. -/
def pyStrip (s : String) : String := ⟨pyStripList s.data⟩

/-- Python `str.lower()` (ASCII). -/
def pyLower (s : String) : String := ⟨s.data.map pyLowerChar⟩

/-- Python `str.rstrip("/")`: drop every trailing `/`. -/
def pyRstripSlash (s : String) : String :=
  ⟨(s.data.reverse.dropWhile (· = '/')).reverse⟩

/-- Python `str.split(sep, 1)` when `sep` occurs: the parts before and after
the first occurrence.  `none` when `sep` does not occur (one-element split). -/
def pySplitOnce (sep : Char) : List Char → Option (List Char × List Char)
  | [] => none
  | c :: cs =>
    if c = sep then some ([], cs)
    else (pySplitOnce sep cs).map (fun p => (c :: p.1, p.2))

/-! ## helper.py : sanitize_resource_id -/

/-- `sanitize_resource_id` from azuremonitormetrics/helper.py:
strip, ensure a leading `/`, `rstrip("/")` when the string ends in `/`,
then lower-case. -/
def sanitize_resource_id (resource_id : String) : String :=
  let r1 := pyStrip resource_id
  let r2 := if r1.data.head? = some '/' then r1 else "/" ++ r1
  let r3 := if r2.data.getLast? = some '/' then pyRstripSlash r2 else r2
  pyLower r3

/-! ## helper.py : rp_registrations

The listing response is modelled as the list of `(namespace,
registrationState)` string pairs selected by the `$select` query; the
function's observable effect is the ordered list of provider namespaces it
POSTs a registration for. -/

structure RpFlags where
  isInsightsRpRegistered : Bool
  isAlertsManagementRpRegistered : Bool
  isMoniotrRpRegistered : Bool
  isDashboardRpRegistered : Bool
deriving Repr, DecidableEq

/-- One iteration of the `for value in values_array` loop of
`rp_registrations`.  Note (faithful to the source): the `microsoft.monitor`
and `microsoft.dashboard` branches set `isAlertsManagementRpRegistered`,
and `isMoniotrRpRegistered` / `isDashboardRpRegistered` are never set. -/
def rpScanStep (flags : RpFlags) (value : String × String) : RpFlags :=
  let f1 := if pyLower value.1 = "microsoft.insights" ∧ pyLower value.2 = "registered"
    then { flags with isInsightsRpRegistered := true } else flags
  let f2 := if pyLower value.1 = "microsoft.alertsmanagement" ∧ pyLower value.2 = "registered"
    then { f1 with isAlertsManagementRpRegistered := true } else f1
  let f3 := if pyLower value.1 = "microsoft.monitor" ∧ pyLower value.2 = "registered"
    then { f2 with isAlertsManagementRpRegistered := true } else f2
  if pyLower value.1 = "microsoft.dashboard" ∧ pyLower value.2 = "registered"
    then { f3 with isAlertsManagementRpRegistered := true } else f3

/-- `rp_registrations` from azuremonitormetrics/helper.py, as the ordered
list of namespaces whose registration POST is issued. -/
def rp_registrations (values : List (String × String)) : List String :=
  let flags := values.foldl rpScanStep ⟨false, false, false, false⟩
  (if flags.isInsightsRpRegistered = false then ["microsoft.insights"] else []) ++
  (if flags.isAlertsManagementRpRegistered = false then ["microsoft.alertsmanagement"] else []) ++
  (if flags.isMoniotrRpRegistered = false then ["microsoft.monitor"] else []) ++
  (if flags.isDashboardRpRegistered = false then ["microsoft.dashboard"] else [])

/-! ## JSON values (results of Python `json.loads`) -/

inductive Json where
  | null : Json
  | bool (b : Bool) : Json
  | num (n : Int) : Json
  | str (s : String) : Json
  | arr (xs : List Json) : Json
  | obj (kvs : List (String × Json)) : Json

/-- Lookup in a JSON object (Python `dict` subscript succeeds iff present). -/
def jsonLookup (kvs : List (String × Json)) (k : String) : Option Json :=
  (kvs.find? (fun kv => kv.1 = k)).map (·.2)

/-- Python `x[k]` on a decoded JSON value: `KeyError` on a missing key of a
dict, `TypeError` when subscripting a non-dict by a string. -/
def jsonGet (j : Json) (k : String) : Except String Json :=
  match j with
  | .obj kvs =>
    match jsonLookup kvs k with
    | some v => .ok v
    | none => .error ("KeyError: " ++ k)
  | _ => .error "TypeError"

/-- Python `k in x` on a decoded JSON value: key membership for dicts,
string-element membership for lists.  (The substring reading for `str`
operands is not modelled; it is outside every theorem below.) -/
def pyIn (k : String) (j : Json) : Bool :=
  match j with
  | .obj kvs => (jsonLookup kvs k).isSome
  | .arr xs => xs.any (fun x => match x with | .str s => s = k | _ => false)
  | _ => false

/-! ## helper.py : check_azuremonitormetrics_profile -/

/-- `check_azuremonitormetrics_profile` from azuremonitormetrics/helper.py,
applied to the decoded JSON response body (the `json.loads(r.text)` value).
Faithful to the source: `json_response["properties"]` and
`[...]["metrics"]["enabled"]` are plain subscripts (may raise), while
`azureMonitorProfile` and `metrics` are guarded by `in` checks. -/
def check_azuremonitormetrics_profile (body : Json) : Except String Bool := do
  let props ← jsonGet body "properties"
  if pyIn "azureMonitorProfile" props then
    let amp ← jsonGet props "azureMonitorProfile"
    if pyIn "metrics" amp then
      let metrics ← jsonGet amp "metrics"
      let enabled ← jsonGet metrics "enabled"
      match enabled with
      | .bool true => pure true
      | _ => pure false
    else
      pure false
  else
    pure false

/-! ## validators.py : _validate_env_var -/

/-- `_validate_env_var` from load/data_plane/utils/validators.py.  The
returned one-entry mapping is an association list; `none` is Python `None`
(the unset sentinel for an empty or `"null"` right-hand side). -/
def _validate_env_var (s : String) : Except String (List (String × Option String)) :=
  if s.data = [] then .ok []
  else
    match pySplitOnce '=' s.data with
    | none => .error ("Invalid env argument: " ++ s)
    | some (k, v) =>
      if v = [] ∨ v = "null".data then .ok [(⟨k⟩, none)]
      else .ok [(⟨k⟩, some ⟨v⟩)]

/-! ## validators.py : _validate_iso_time

`datetime.strptime` for the two formats `%Y-%m-%dT%H:%M:%S.%fZ` and
`%Y-%m-%dT%H:%M:%SZ`, following CPython `_strptime`: `%Y` is exactly four
digits, `%m`/`%d`/`%H`/`%M`/`%S` are one or two digits with the usual
alternation ranges (seconds up to 61 at the regex level), `%f` is one to
six digits, literals `T` and `Z` match case-insensitively, the whole string
must be consumed, and the `datetime` constructor then requires year ≥ 1,
a day valid for the month, and seconds ≤ 59. -/

/-- Maximal leading run of ASCII digits and the remainder. -/
def spanDigits (cs : List Char) : List Char × List Char :=
  (cs.takeWhile Char.isDigit, cs.dropWhile Char.isDigit)

/-- Numeric value of a digit run. -/
def digitsToNat (ds : List Char) : Nat :=
  ds.foldl (fun acc c => 10 * acc + (c.toNat - 48)) 0

/-- Parse one exact literal character. -/
def pLit (c : Char) : List Char → Option (List Char)
  | [] => none
  | x :: r => if x = c then some r else none

/-- Parse one literal character case-insensitively (as `re.IGNORECASE` in
CPython's strptime regex). -/
def pLitCI (c : Char) : List Char → Option (List Char)
  | [] => none
  | x :: r => if pyLowerChar x = pyLowerChar c then some r else none

/-- Parse a 1-or-2-digit strptime field: a two-digit run must satisfy
`ok2`, a one-digit run must satisfy `ok1`; any other run length fails
(the field's alternation is always followed by a non-digit literal, so
regex backtracking cannot split a longer digit run). -/
def pField (ok2 ok1 : Nat → Bool) (cs : List Char) : Option (Nat × List Char) :=
  let (ds, r) := spanDigits cs
  let v := digitsToNat ds
  if (ds.length = 2 && ok2 v) || (ds.length = 1 && ok1 v) then some (v, r) else none

/-- Four-digit `%Y` field. -/
def pYear (cs : List Char) : Option (Nat × List Char) :=
  let (ds, r) := spanDigits cs
  if ds.length = 4 then some (digitsToNat ds, r) else none

def isLeapYear (y : Nat) : Bool :=
  y % 4 = 0 && (y % 100 ≠ 0 || y % 400 = 0)

def daysInMonth (y m : Nat) : Nat :=
  if m = 2 then (if isLeapYear y then 29 else 28)
  else if m = 4 ∨ m = 6 ∨ m = 9 ∨ m = 11 then 30
  else 31

/-- `datetime.strptime(s, fmt)` succeeds, for
`fmt = "%Y-%m-%dT%H:%M:%S.%fZ"` (`withFrac = true`) or
`fmt = "%Y-%m-%dT%H:%M:%SZ"` (`withFrac = false`). -/
def pyStrptimeIso (withFrac : Bool) (s : String) : Bool :=
  let parsed : Option (Nat × Nat × Nat × Nat) := do
    let (y, r) ← pYear s.data
    let r ← pLit '-' r
    let (mo, r) ← pField (fun v => 1 ≤ v && v ≤ 12) (fun v => 1 ≤ v) r
    let r ← pLit '-' r
    let (d, r) ← pField (fun v => 1 ≤ v && v ≤ 31) (fun v => 1 ≤ v) r
    let r ← pLitCI 'T' r
    let (_, r) ← pField (fun v => v ≤ 23) (fun _ => true) r
    let r ← pLit ':' r
    let (_, r) ← pField (fun v => v ≤ 59) (fun _ => true) r
    let r ← pLit ':' r
    let (ss, r) ← pField (fun v => v ≤ 61) (fun _ => true) r
    let r ← (if withFrac then do
        let r ← pLit '.' r
        let (fs, r') := spanDigits r
        if 1 ≤ fs.length ∧ fs.length ≤ 6 then some r' else none
      else some r)
    let r ← pLitCI 'Z' r
    if r = [] then some (y, mo, d, ss) else none
  match parsed with
  | none => false
  | some (y, mo, d, ss) => 1 ≤ y && d ≤ daysInMonth y mo && ss ≤ 59

/-- `_validate_iso_time` from load/data_plane/utils/validators.py, on a
string argument: try `%Y-%m-%dT%H:%M:%S.%fZ`, then `%Y-%m-%dT%H:%M:%SZ`,
else raise `InvalidArgumentValueError`. -/
def _validate_iso_time (s : String) : Except String Unit :=
  if pyStrptimeIso true s then .ok ()
  else if pyStrptimeIso false s then .ok ()
  else .error ("Invalid time format: '" ++ s ++ "'. Expected ISO 8601 format.")

/-! ## validators.py : _validate_akv_url / _validate_secret

The regex
`^https://[a-zA-Z0-9_-]+\.(?:vault|vault-int)\.(?:azure|azure-int|usgovcloudapi|microsoftazure)\.(?:net|cn|de)/(?:<url_type>)/[a-zA-Z0-9_-]+(?:/[a-zA-Z0-9_-]+|$)$`
compiled with `re.IGNORECASE` and applied with `re.match`.  Because every
literal and the character class are closed under ASCII case, matching is
equivalent to matching the lower-cased input against the lower-cased
pattern, so the input is lower-cased up front.  Each `[a-zA-Z0-9_-]+` run
is followed by a character outside the class, so greedy matching with
backtracking is equivalent to taking the maximal class run.  The pattern is
a sequence of literals, literal alternations and class runs; `runItems`
returns every remainder a backtracking match can reach, and Python's `$`
(`pyDollar`) accepts the empty remainder or a single final newline. -/

/-- The per-character folding CPython `re.IGNORECASE` applies when
matching this pattern (verified against CPython by enumerating all code
points): ASCII upper-case folds to lower-case, and the only non-ASCII
characters that match `[a-zA-Z]` or this pattern's ASCII literals are
İ (U+0130) and ı (U+0131), which match `i`, ſ (U+017F), which matches
`s`, and K (U+212A), which matches `k`. -/
def pyFoldChar (c : Char) : Char :=
  if 65 ≤ c.toNat ∧ c.toNat ≤ 90 then Char.ofNat (c.toNat + 32)
  else if c.toNat = 304 ∨ c.toNat = 305 then 'i'
  else if c.toNat = 383 then 's'
  else if c.toNat = 8490 then 'k'
  else c

/-- The class `[a-zA-Z0-9_-]` on folded input. -/
def akvClassChar (c : Char) : Bool :=
  ('a' ≤ c && c ≤ 'z') || c.isDigit || c = '_' || c = '-'

/-- Strip an exact literal prefix. -/
def stripLit : List Char → List Char → Option (List Char)
  | [], cs => some cs
  | _ :: _, [] => none
  | l :: ls, c :: cs => if c = l then stripLit ls cs else none

/-- One regex item: a literal, an alternation of literals, or a
`[a-zA-Z0-9_-]+` class run. -/
inductive RItem where
  | lit (l : List Char) : RItem
  | alts (ls : List (List Char)) : RItem
  | crun : RItem

/-- All remainders reachable by matching the item sequence against `cs`
(backtracking = collecting every alternative). -/
def runItems : List RItem → List Char → List (List Char)
  | [], cs => [cs]
  | .lit l :: rest, cs =>
    match stripLit l cs with
    | some cs' => runItems rest cs'
    | none => []
  | .alts ls :: rest, cs =>
    ls.flatMap (fun l =>
      match stripLit l cs with
      | some cs' => runItems rest cs'
      | none => [])
  | .crun :: rest, cs =>
    let run := cs.takeWhile akvClassChar
    if run = [] then [] else runItems rest (cs.dropWhile akvClassChar)

/-- No literal of the item mentions a newline (true of every item of the
AKV regex; used to analyze Python's `$` anchor). -/
def itemNoNl : RItem → Bool
  | .lit l => l.all (fun c => !(c = '\n'))
  | .alts ls => ls.all (fun l => l.all (fun c => !(c = '\n')))
  | .crun => true

/-- The item sequence of the `_validate_akv_url` regex up to (and
including) the `<name>` run, parameterized by the `url_type` alternation. -/
def akvItems (urlTypes : List (List Char)) : List RItem :=
  [.lit "https://".data, .crun,
   .lit ['.'], .alts ["vault".data, "vault-int".data],
   .lit ['.'], .alts ["azure".data, "azure-int".data, "usgovcloudapi".data, "microsoftazure".data],
   .lit ['.'], .alts ["net".data, "cn".data, "de".data],
   .lit ['/'], .alts urlTypes,
   .lit ['/'], .crun]

/-- Remainders after the full pattern: the trailing group
`(?:/[a-zA-Z0-9_-]+|$)` either consumes `/<version>` or nothing. -/
def akvFinals (urlTypes : List (List Char)) (cs : List Char) : List (List Char) :=
  runItems (akvItems urlTypes ++ [.lit ['/'], .crun]) cs ++ runItems (akvItems urlTypes) cs

/-- Python's `$` anchor (no `re.MULTILINE`): end of string, or just before
a newline at the end of the string. -/
def pyDollar (r : List Char) : Bool :=
  r = [] || r = ['\n']

/-- `_validate_akv_url` from load/data_plane/utils/validators.py, as the
truthiness of `re.match(regex, string, re.IGNORECASE)`. -/
def _validate_akv_url (s : String)
    (urlTypes : List (List Char) :=
      ["secrets".data, "certificates".data, "keys".data, "storage".data]) : Bool :=
  (akvFinals urlTypes (s.data.map pyFoldChar)).any pyDollar

/-- The value slot of a validated secret entry: Python `None` for the unset
sentinel, or the dict `{"type": "AKV_SECRET_URI", "value": url}`. -/
inductive SecretEntryValue where
  | unset : SecretEntryValue
  | akvSecretUri (url : String) : SecretEntryValue
deriving Repr, DecidableEq

/-- `_validate_secret` from load/data_plane/utils/validators.py. -/
def _validate_secret (s : String) : Except String (List (String × SecretEntryValue)) :=
  if s.data = [] then .ok []
  else
    match pySplitOnce '=' s.data with
    | none => .error ("Invalid secret argument: " ++ s)
    | some (k, v) =>
      if v = "null".data ∨ v = [] then .ok [(⟨k⟩, .unset)]
      else if _validate_akv_url ⟨v⟩ ["secrets".data] = false then
        .error ("Invalid Azure Key Vault Secret URL: " ++ (⟨v⟩ : String))
      else .ok [(⟨k⟩, .akvSecretUri ⟨v⟩)]

/-- Modelled from the spec: the Key-Vault secret URL grammar
`https://<vault>.(vault|vault-int).(azure|azure-int|usgovcloudapi|microsoftazure).(net|cn|de)/secrets/<name>[/<version>]`,
matched ASCII-case-insensitively against the whole string (strict end of
string, no trailing-newline allowance), with `<vault>`, `<name>`,
`<version>` drawn from `[a-zA-Z0-9_-]+`. -/
def specAkvSecretUrl (s : String) : Bool :=
  let low := s.data.map pyLowerChar
  (runItems (akvItems ["secrets".data] ++ [.lit ['/'], .crun]) low ++
    runItems (akvItems ["secrets".data]) low).any (· = [])

/-! ## vendored SDK : _upgrade_extensions_initial / begin_upgrade_extensions -/

/-- The azure-core exception classes the initial-request error path can
raise. -/
inductive ErrorKind where
  | clientAuthenticationError : ErrorKind
  | resourceNotFoundError : ErrorKind
  | resourceExistsError : ErrorKind
  | httpResponseError : ErrorKind
deriving Repr, DecidableEq

/-- The static `error_map` of `_upgrade_extensions_initial`
(`{401: ClientAuthenticationError, 404: ResourceNotFoundError,
409: ResourceExistsError}`), combined with `map_error`'s behavior of
falling through to a plain `HttpResponseError` for unmapped codes. -/
def error_map (status : Nat) : ErrorKind :=
  if status = 401 then .clientAuthenticationError
  else if status = 404 then .resourceNotFoundError
  else if status = 409 then .resourceExistsError
  else .httpResponseError

/-- The service error code an azure-core `HttpResponseError` extracts from
an `{"error": {"code": ..., "message": ...}}` (ARM/OData) response body. -/
def armErrorCode (body : Json) : Option String :=
  match body with
  | .obj kvs =>
    match jsonLookup kvs "error" with
    | some (.obj ekvs) =>
      match jsonLookup ekvs "code" with
      | some (.str c) => some c
      | _ => none
    | _ => none
  | _ => none

/-- The error raised on a rejected initial response: exception class,
HTTP status code, and the service error code parsed from the body. -/
structure HttpError where
  kind : ErrorKind
  statusCode : Nat
  errorCode : Option String
deriving Repr, DecidableEq

/-- The response handling of `_upgrade_extensions_initial`: accept exactly
status codes `[200, 202]`; otherwise `map_error` / `HttpResponseError`
with the ARM-format body error. -/
def _upgrade_extensions_initial (status : Nat) (body : Json) : Except HttpError Unit :=
  if status = 200 ∨ status = 202 then .ok ()
  else .error ⟨error_map status, status, armErrorCode body⟩

/-! ## LRO poller model

The polling machinery (`AsyncLROPoller`, `AsyncARMPolling`) lives in
azure-core, outside this repository's sources; only its call sites are in
`begin_upgrade_extensions`.  The handle, poll step and continuation token
are therefore modelled from the spec. -/

inductive LROStatus where
  | inProgress : LROStatus
  | succeeded : LROStatus
  | failed : LROStatus
  | canceled : LROStatus
deriving Repr, DecidableEq

def LROStatus.isTerminal : LROStatus → Bool
  | .inProgress => false
  | _ => true

inductive PollStrategy where
  | armPolling : PollStrategy
  | noPolling : PollStrategy
deriving Repr, DecidableEq

/-- Modelled from the spec: the Operation Handle (poller) — poll URL,
current lifecycle status, accumulated poll count, polling strategy, and
the last response body seen. -/
structure OperationHandle where
  pollUrl : String
  status : LROStatus
  pollCount : Nat
  strategy : PollStrategy
  lastBody : Option Json

/-- What one poll GET yields: a parsed status (with response body), or a
transport/status-code failure. -/
inductive PollResponse where
  | ok (st : LROStatus) (body : Option Json) : PollResponse
  | transportError : PollResponse

/-- Modelled from the spec: one `poll` step.  A terminal handle is not
polled again (terminal states never transition); a transport or
status-code failure leaves the handle unchanged; otherwise the parsed
status is adopted and the poll count incremented. -/
def poll (h : OperationHandle) (r : PollResponse) : OperationHandle :=
  if h.status.isTerminal then h
  else
    match r with
    | .transportError => h
    | .ok st body => { h with status := st, pollCount := h.pollCount + 1, lastBody := body }

/-- Folding `poll` over a sequence of poll responses. -/
def pollMany (h : OperationHandle) (rs : List PollResponse) : OperationHandle :=
  rs.foldl poll h

def strategyName : PollStrategy → String
  | .armPolling => "AsyncARMPolling"
  | .noPolling => "AsyncNoPolling"

def parseStrategy (s : String) : Option PollStrategy :=
  if s = "AsyncARMPolling" then some .armPolling
  else if s = "AsyncNoPolling" then some .noPolling
  else none

/-- Modelled from the spec: the continuation token externalizes the target
URL, the last status, the polling strategy identifier, and the last seen
response. -/
structure ContinuationToken where
  pollUrl : String
  status : LROStatus
  strategyId : String
  lastBody : Option Json

/-- Modelled from the spec: producing a continuation token from a handle. -/
def continuation_token (h : OperationHandle) : ContinuationToken :=
  ⟨h.pollUrl, h.status, strategyName h.strategy, h.lastBody⟩

inductive BeginError where
  | http (e : HttpError) : BeginError
  | invalidContinuationToken : BeginError
deriving Repr, DecidableEq

/-- Modelled from the spec: `AsyncLROPoller.from_continuation_token` —
reconstruct a handle from the token, failing on an unknown polling
strategy identifier. -/
def from_continuation_token (t : ContinuationToken) : Except BeginError OperationHandle :=
  match parseStrategy t.strategyId with
  | none => .error .invalidContinuationToken
  | some st => .ok ⟨t.pollUrl, t.status, 0, st, t.lastBody⟩

/-- The poll-relevant observation of a handle: everything except the
accumulated poll count. -/
def OperationHandle.obs (h : OperationHandle) :
    String × LROStatus × PollStrategy × Option Json :=
  (h.pollUrl, h.status, h.strategy, h.lastBody)

/-- Result of `begin_upgrade_extensions`: whether the initial mutating
request was issued, and the poller handle (or the raised error). -/
structure BeginOutcome where
  initialRequestIssued : Bool
  poller : Except BeginError OperationHandle

/-- `begin_upgrade_extensions` from the vendored SDK, with the default
`polling=True` (AsyncARMPolling).  Faithful to the source's control flow:
the initial request is issued exactly when `cont_token is None`; with a
continuation token the poller is rebuilt via `from_continuation_token`.
The initial HTTP exchange is summarized by its status code and body; on
acceptance the poller starts `InProgress` at the operation URL. -/
def begin_upgrade_extensions (contToken : Option ContinuationToken)
    (initialStatus : Nat) (initialBody : Json) (url : String) : BeginOutcome :=
  match contToken with
  | none =>
    { initialRequestIssued := true
      poller :=
        match _upgrade_extensions_initial initialStatus initialBody with
        | .ok () => .ok ⟨url, .inProgress, 0, .armPolling, none⟩
        | .error e => .error (.http e) }
  | some t =>
    { initialRequestIssued := false
      poller := from_continuation_token t }

end AzExt

namespace AzExt

/-! ## Helper lemmas -/

theorem pySplitOnce_of_not_mem (sep : Char) :
    ∀ s : List Char, sep ∉ s → pySplitOnce sep s = none := by
  intro s
  induction s with
  | nil => intro _; rfl
  | cons c cs ih =>
    intro h
    have hc : ¬c = sep := fun he => h (he ▸ List.mem_cons_self c cs)
    have hcs : sep ∉ cs := fun hm => h (List.mem_cons_of_mem c hm)
    simp [pySplitOnce, hc, ih hcs]

theorem pySplitOnce_append (sep : Char) :
    ∀ k v : List Char, sep ∉ k → pySplitOnce sep (k ++ sep :: v) = some (k, v) := by
  intro k
  induction k with
  | nil => intro v _; simp [pySplitOnce]
  | cons c k ih =>
    intro v h
    have hc : ¬c = sep := fun he => h (he ▸ List.mem_cons_self c k)
    have hk : sep ∉ k := fun hm => h (List.mem_cons_of_mem c hm)
    simp [pySplitOnce, hc, ih v hk]

theorem data_ne_nil_of_ne_empty {s : String} (h : s ≠ "") : s.data ≠ [] := by
  intro hd
  exact h (String.ext (hd.trans rfl))

theorem data_ne_of_ne {s t : String} (h : s ≠ t) : s.data ≠ t.data := by
  intro hd
  exact h (String.ext hd)

theorem poll_of_terminal (h : OperationHandle) (r : PollResponse)
    (ht : h.status.isTerminal = true) : poll h r = h := by
  simp [poll, ht]

theorem pollMany_of_terminal (rs : List PollResponse) :
    ∀ h : OperationHandle, h.status.isTerminal = true → pollMany h rs = h := by
  induction rs with
  | nil => intro h _; rfl
  | cons r rs ih =>
    intro h ht
    show pollMany (poll h r) rs = h
    rw [poll_of_terminal h r ht]
    exact ih h ht

theorem poll_obs_congr (h h' : OperationHandle) (r : PollResponse)
    (he : h.obs = h'.obs) : (poll h r).obs = (poll h' r).obs := by
  have hu : h.pollUrl = h'.pollUrl ∧ h.status = h'.status ∧
      h.strategy = h'.strategy ∧ h.lastBody = h'.lastBody := by
    simpa [OperationHandle.obs, Prod.ext_iff] using he
  unfold poll
  rw [hu.2.1]
  by_cases ht : h'.status.isTerminal = true
  · simpa [ht] using he
  · simp only [ht, if_neg, Bool.not_eq_true] at *
    cases r with
    | transportError => simpa [ht] using he
    | ok st body => simp [ht, OperationHandle.obs, hu.1, hu.2.2.1]

theorem pollMany_obs_congr (rs : List PollResponse) :
    ∀ h h' : OperationHandle, h.obs = h'.obs →
      (pollMany h rs).obs = (pollMany h' rs).obs := by
  induction rs with
  | nil => intro h h' he; exact he
  | cons r rs ih =>
    intro h h' he
    exact ih (poll h r) (poll h' r) (poll_obs_congr h h' r he)

/-! ## Claim theorems -/

/-- C1 counterexample: the initial submit request treats status codes 201
and 204 as failures (the accepted set of the code is `[200, 202]`), so the
claim that 201 and 204 are accepted is false. -/
theorem upgrade_extensions_initial_rejects_201_204 :
    _upgrade_extensions_initial 201 Json.null
      = .error ⟨.httpResponseError, 201, none⟩ ∧
    _upgrade_extensions_initial 204 Json.null
      = .error ⟨.httpResponseError, 204, none⟩ :=
  ⟨rfl, rfl⟩

/-- C1 (amended): the initial submit request succeeds exactly on status
codes 200 and 202; every other status fails with the mapped error kind,
carrying the status code and the service error code extracted from an
ARMErrorFormat-style body. -/
theorem upgrade_extensions_initial_accepted_set (status : Nat) (body : Json) :
    ((status = 200 ∨ status = 202) → _upgrade_extensions_initial status body = .ok ()) ∧
    (¬(status = 200 ∨ status = 202) →
      _upgrade_extensions_initial status body
        = .error ⟨error_map status, status, armErrorCode body⟩) := by
  constructor <;> intro h <;> simp [_upgrade_extensions_initial, h]

theorem upgrade_extensions_initial_accepted_set_witness :
    _upgrade_extensions_initial 202 Json.null = .ok () ∧
    _upgrade_extensions_initial 503 Json.null
      = .error ⟨.httpResponseError, 503, none⟩ :=
  ⟨(upgrade_extensions_initial_accepted_set 202 Json.null).1 (Or.inr rfl),
   (upgrade_extensions_initial_accepted_set 503 Json.null).2 (by decide)⟩

/-- C2: evaluating `rp_registrations` on a listing where
`microsoft.insights` is Registered, `microsoft.alertsmanagement` is NOT
Registered, and `microsoft.monitor` / `microsoft.dashboard` ARE
Registered: the code issues POSTs exactly for `microsoft.monitor` and
`microsoft.dashboard` (both already registered) and issues none for
`microsoft.alertsmanagement` (not registered) — the opposite of the
claimed per-namespace behavior, caused by the copy-paste flag assignment. -/
theorem rp_registrations_copy_paste_flags :
    rp_registrations
      [("microsoft.insights", "Registered"),
       ("microsoft.alertsmanagement", "NotRegistered"),
       ("microsoft.monitor", "Registered"),
       ("microsoft.dashboard", "Registered")]
      = ["microsoft.monitor", "microsoft.dashboard"] := by
  rfl

/-- C4: over any sequence of poll steps, a handle's status only ever
advances from `InProgress`: a terminal handle is left completely
unchanged by any further poll steps (so no terminal state ever moves back
to `InProgress` or to a different terminal state), and whenever the
status changes at all the starting status was `InProgress`. -/
theorem pollMany_status_monotone (h : OperationHandle) (rs : List PollResponse) :
    (h.status.isTerminal = true → pollMany h rs = h) ∧
    ((pollMany h rs).status = h.status ∨ h.status = LROStatus.inProgress) := by
  refine ⟨fun ht => pollMany_of_terminal rs h ht, ?_⟩
  by_cases ht : h.status.isTerminal = true
  · exact Or.inl (by rw [pollMany_of_terminal rs h ht])
  · refine Or.inr ?_
    revert ht
    cases hs : h.status <;> simp [LROStatus.isTerminal]

theorem pollMany_status_monotone_witness :
    pollMany ⟨"u", .succeeded, 3, .armPolling, none⟩ [.ok .failed none]
      = ⟨"u", .succeeded, 3, .armPolling, none⟩ :=
  (pollMany_status_monotone ⟨"u", .succeeded, 3, .armPolling, none⟩ [.ok .failed none]).1 rfl

/-- C5: a poller reconstructed from a continuation token produced
mid-flight (after the poll steps `rs1`) never re-issues the initial
mutating request, and polling it over the remaining steps `rs2` yields
the same status and final payload as polling the original handle
continuously over `rs1 ++ rs2`. -/
theorem begin_upgrade_extensions_resume_equiv
    (st : Nat) (b : Json) (url2 : String) (rs1 rs2 : List PollResponse)
    (h : OperationHandle) :
    (begin_upgrade_extensions (some (continuation_token (pollMany h rs1))) st b url2).initialRequestIssued
      = false ∧
    (begin_upgrade_extensions (some (continuation_token (pollMany h rs1))) st b url2).poller
      = .ok ⟨(pollMany h rs1).pollUrl, (pollMany h rs1).status, 0,
             (pollMany h rs1).strategy, (pollMany h rs1).lastBody⟩ ∧
    (pollMany ⟨(pollMany h rs1).pollUrl, (pollMany h rs1).status, 0,
               (pollMany h rs1).strategy, (pollMany h rs1).lastBody⟩ rs2).status
      = (pollMany h (rs1 ++ rs2)).status ∧
    (pollMany ⟨(pollMany h rs1).pollUrl, (pollMany h rs1).status, 0,
               (pollMany h rs1).strategy, (pollMany h rs1).lastBody⟩ rs2).lastBody
      = (pollMany h (rs1 ++ rs2)).lastBody := by
  refine ⟨rfl, ?_, ?_, ?_⟩
  · cases hs : (pollMany h rs1).strategy <;>
      simp [begin_upgrade_extensions, continuation_token, from_continuation_token,
        strategyName, parseStrategy, hs]
  · have happ : pollMany h (rs1 ++ rs2) = pollMany (pollMany h rs1) rs2 := by
      simp [pollMany, List.foldl_append]
    rw [happ]
    have hobs := pollMany_obs_congr rs2
      ⟨(pollMany h rs1).pollUrl, (pollMany h rs1).status, 0,
       (pollMany h rs1).strategy, (pollMany h rs1).lastBody⟩
      (pollMany h rs1) rfl
    exact congrArg (fun t => t.2.1) hobs
  · have happ : pollMany h (rs1 ++ rs2) = pollMany (pollMany h rs1) rs2 := by
      simp [pollMany, List.foldl_append]
    rw [happ]
    have hobs := pollMany_obs_congr rs2
      ⟨(pollMany h rs1).pollUrl, (pollMany h rs1).status, 0,
       (pollMany h rs1).strategy, (pollMany h rs1).lastBody⟩
      (pollMany h rs1) rfl
    exact congrArg (fun t => t.2.2.2) hobs

/-- C6: an initial submit response with status 409 fails with the
Conflict-kind error (`ResourceExistsError`) from the static error map,
carrying the service error code extracted from the response body
(concretely `Conflict` for a `{"error":{"code":"Conflict",...}}` body);
401 maps to the Unauthorized kind, 404 to the NotFound kind, and every
other non-accepted status to the generic `HttpResponseError` kind. -/
theorem upgrade_extensions_initial_error_kinds (body : Json) (status : Nat) :
    _upgrade_extensions_initial 409 body
      = .error ⟨.resourceExistsError, 409, armErrorCode body⟩ ∧
    _upgrade_extensions_initial 409
        (.obj [("error", .obj [("code", .str "Conflict"), ("message", .str "msg")])])
      = .error ⟨.resourceExistsError, 409, some "Conflict"⟩ ∧
    _upgrade_extensions_initial 401 body
      = .error ⟨.clientAuthenticationError, 401, armErrorCode body⟩ ∧
    _upgrade_extensions_initial 404 body
      = .error ⟨.resourceNotFoundError, 404, armErrorCode body⟩ ∧
    (status ∉ ([200, 202, 401, 404, 409] : List Nat) →
      _upgrade_extensions_initial status body
        = .error ⟨.httpResponseError, status, armErrorCode body⟩) := by
  refine ⟨by norm_num [_upgrade_extensions_initial, error_map], rfl,
    by norm_num [_upgrade_extensions_initial, error_map],
    by norm_num [_upgrade_extensions_initial, error_map], ?_⟩
  intro hst
  simp only [List.mem_cons, List.not_mem_nil, or_false] at hst
  push_neg at hst
  obtain ⟨h200, h202, h401, h404, h409⟩ := hst
  simp [_upgrade_extensions_initial, error_map, h200, h202, h401, h404, h409]

theorem upgrade_extensions_initial_error_kinds_witness :
    _upgrade_extensions_initial 500 Json.null
      = .error ⟨.httpResponseError, 500, none⟩ :=
  (upgrade_extensions_initial_error_kinds Json.null 500).2.2.2.2 (by decide)

/-- C7: the environment-variable validator maps `KEY=` and `KEY=null` to
the one-entry mapping `{KEY: None}`, maps `KEY=value` with any other
non-empty value to `{KEY: value}`, and raises `InvalidArgumentValueError`
on every nonempty string that contains no `=`. -/
theorem validate_env_var_spec :
    (∀ k v : String, '=' ∉ k.data →
      ((v = "" ∨ v = "null") → _validate_env_var (k ++ "=" ++ v) = .ok [(k, none)]) ∧
      (v ≠ "" → v ≠ "null" → _validate_env_var (k ++ "=" ++ v) = .ok [(k, some v)])) ∧
    (∀ s : String, s ≠ "" → '=' ∉ s.data →
      _validate_env_var s = .error ("Invalid env argument: " ++ s)) := by
  constructor
  · intro k v hk
    have hdata : (k ++ "=" ++ v).data = k.data ++ '=' :: v.data := by
      simp [String.data_append]
    have hsplit := pySplitOnce_append '=' k.data v.data hk
    constructor
    · rintro (hv | hv) <;> subst hv <;>
        simp [_validate_env_var, hdata, hsplit]
    · intro hv1 hv2
      have hv1' : v.data ≠ [] := data_ne_nil_of_ne_empty hv1
      have hv2' : v.data ≠ "null".data := data_ne_of_ne hv2
      simp [_validate_env_var, hdata, hsplit, hv1', hv2']
  · intro s hs hmem
    have hd : s.data ≠ [] := data_ne_nil_of_ne_empty hs
    simp [_validate_env_var, hd, pySplitOnce_of_not_mem '=' s.data hmem]

theorem validate_env_var_spec_witness :
    _validate_env_var "KEY=" = .ok [("KEY", none)] ∧
    _validate_env_var "KEY=null" = .ok [("KEY", none)] ∧
    _validate_env_var "KEY=value" = .ok [("KEY", some "value")] ∧
    _validate_env_var "novalue" = .error "Invalid env argument: novalue" :=
  ⟨(validate_env_var_spec.1 "KEY" "" (by decide)).1 (Or.inl rfl),
   (validate_env_var_spec.1 "KEY" "null" (by decide)).1 (Or.inr rfl),
   (validate_env_var_spec.1 "KEY" "value" (by decide)).2 (by decide) (by decide),
   validate_env_var_spec.2 "novalue" (by decide) (by decide)⟩

/-- C3 counterexample: the feature-flag probe raises (`KeyError`) rather
than returning `False` when the `enabled` key is missing under an existing
`metrics` object, or when the top-level `properties` key is missing — the
claim that every missing key along the path yields `False` is false. -/
theorem check_profile_missing_key_raises :
    check_azuremonitormetrics_profile
        (.obj [("properties",
          .obj [("azureMonitorProfile", .obj [("metrics", .obj [])])])])
      = .error "KeyError: enabled" ∧
    check_azuremonitormetrics_profile (.obj [("x", .null)])
      = .error "KeyError: properties" :=
  ⟨rfl, rfl⟩

/-- C3 (amended): the probe returns `True` iff the path
`properties.azureMonitorProfile.metrics.enabled` exists with value `True`;
a missing `azureMonitorProfile` or `metrics` key yields `False`, a
non-`True` `enabled` value yields `False`, while a missing `properties`
key — or a missing `enabled` key under an existing `metrics` object —
raises a `KeyError` instead of returning `False`. -/
theorem check_profile_nested_path (kvs : List (String × Json)) :
    (jsonLookup kvs "properties" = none →
      check_azuremonitormetrics_profile (.obj kvs) = .error "KeyError: properties") ∧
    (∀ pkvs, jsonLookup kvs "properties" = some (.obj pkvs) →
      (jsonLookup pkvs "azureMonitorProfile" = none →
        check_azuremonitormetrics_profile (.obj kvs) = .ok false) ∧
      (∀ akvs, jsonLookup pkvs "azureMonitorProfile" = some (.obj akvs) →
        (jsonLookup akvs "metrics" = none →
          check_azuremonitormetrics_profile (.obj kvs) = .ok false) ∧
        (∀ mkvs, jsonLookup akvs "metrics" = some (.obj mkvs) →
          (jsonLookup mkvs "enabled" = none →
            check_azuremonitormetrics_profile (.obj kvs) = .error "KeyError: enabled") ∧
          (jsonLookup mkvs "enabled" = some (.bool true) →
            check_azuremonitormetrics_profile (.obj kvs) = .ok true) ∧
          (∀ e, jsonLookup mkvs "enabled" = some e → e ≠ .bool true →
            check_azuremonitormetrics_profile (.obj kvs) = .ok false)))) := by
  constructor
  · intro h
    simp [check_azuremonitormetrics_profile, Bind.bind, Except.bind, Pure.pure, Except.pure, jsonGet, h]
  · intro pkvs hp
    constructor
    · intro h
      simp [check_azuremonitormetrics_profile, Bind.bind, Except.bind, Pure.pure, Except.pure, jsonGet, pyIn, hp, h]
    · intro akvs ha
      constructor
      · intro h
        simp [check_azuremonitormetrics_profile, Bind.bind, Except.bind, Pure.pure, Except.pure, jsonGet, pyIn, hp, ha, h]
      · intro mkvs hm
        refine ⟨fun h => ?_, fun h => ?_, fun e he hne => ?_⟩
        · simp [check_azuremonitormetrics_profile, Bind.bind, Except.bind, Pure.pure, Except.pure, jsonGet, pyIn, hp, ha, hm, h]
        · simp [check_azuremonitormetrics_profile, Bind.bind, Except.bind, Pure.pure, Except.pure, jsonGet, pyIn, hp, ha, hm, h]
        · have : (match e with
              | .bool true => (pure true : Except String Bool)
              | _ => pure false) = pure false := by
            cases e with
            | bool b => cases b with
              | true => exact absurd rfl hne
              | false => rfl
            | null => rfl
            | num n => rfl
            | str s => rfl
            | arr xs => rfl
            | obj o => rfl
          simp [check_azuremonitormetrics_profile, Bind.bind, Except.bind, Pure.pure, Except.pure, jsonGet, pyIn, hp, ha, hm, he, this]

theorem check_profile_nested_path_witness :
    check_azuremonitormetrics_profile
        (.obj [("properties",
          .obj [("azureMonitorProfile",
            .obj [("metrics", .obj [("enabled", .bool true)])])])])
      = .ok true := by
  have h := check_profile_nested_path
    [("properties",
      .obj [("azureMonitorProfile",
        .obj [("metrics", .obj [("enabled", .bool true)])])])]
  exact ((((h.2 _ rfl).2 _ rfl).2 _ rfl).2.1) rfl

/-! ## Character-level lemmas for the sanitizer -/

theorem charToNat_ofNat {n : Nat} (h : n.isValidChar) : (Char.ofNat n).toNat = n := by
  simp only [Char.ofNat, h, dif_pos]
  rfl

theorem char_eq_of_toNat_eq {c d : Char} (h : c.toNat = d.toNat) : c = d :=
  Char.ext (UInt32.ext h)

theorem char_ne_of_toNat_ne {c d : Char} (h : c.toNat ≠ d.toNat) : c ≠ d :=
  fun he => h (congrArg Char.toNat he)

theorem pyLowerChar_toNat (c : Char) :
    (pyLowerChar c).toNat =
      if 65 ≤ c.toNat ∧ c.toNat ≤ 90 then c.toNat + 32 else c.toNat := by
  unfold pyLowerChar
  by_cases h : 'A' ≤ c ∧ c ≤ 'Z'
  · have h65 : 65 ≤ c.toNat := h.1
    have h90 : c.toNat ≤ 90 := h.2
    rw [if_pos h, if_pos ⟨h65, h90⟩]
    exact charToNat_ofNat (Or.inl (by omega))
  · have h' : ¬(65 ≤ c.toNat ∧ c.toNat ≤ 90) := fun hc => h ⟨hc.1, hc.2⟩
    rw [if_neg h, if_neg h']

theorem pyLowerChar_of_not_upper {c : Char} (h : ¬(65 ≤ c.toNat ∧ c.toNat ≤ 90)) :
    pyLowerChar c = c := by
  unfold pyLowerChar
  exact if_neg (fun hc => h ⟨hc.1, hc.2⟩)

theorem pyLowerChar_fix (c : Char) : pyLowerChar (pyLowerChar c) = pyLowerChar c := by
  apply pyLowerChar_of_not_upper
  rw [pyLowerChar_toNat]
  by_cases h : 65 ≤ c.toNat ∧ c.toNat ≤ 90
  · rw [if_pos h]; omega
  · rw [if_neg h]; exact h

theorem pyLowerChar_eq_low {c d : Char} (hd : d.toNat < 65) :
    pyLowerChar c = d ↔ c = d := by
  constructor
  · intro he
    have ht := congrArg Char.toNat he
    rw [pyLowerChar_toNat] at ht
    by_cases h : 65 ≤ c.toNat ∧ c.toNat ≤ 90
    · rw [if_pos h] at ht; omega
    · rw [if_neg h] at ht; exact char_eq_of_toNat_eq ht
  · intro he
    subst he
    exact pyLowerChar_of_not_upper (by omega)

theorem pyWhitespace_eq_false_of_range {c : Char} (h1 : 65 ≤ c.toNat)
    (h2 : c.toNat ≤ 122) : pyWhitespace c = false := by
  unfold pyWhitespace
  rw [decide_eq_false_iff_not]
  omega

theorem pyWhitespace_pyLowerChar (c : Char) :
    pyWhitespace (pyLowerChar c) = pyWhitespace c := by
  by_cases h : 65 ≤ c.toNat ∧ c.toNat ≤ 90
  · have hlo : 65 ≤ (pyLowerChar c).toNat ∧ (pyLowerChar c).toNat ≤ 122 := by
      rw [pyLowerChar_toNat, if_pos h]
      omega
    rw [pyWhitespace_eq_false_of_range hlo.1 hlo.2,
      pyWhitespace_eq_false_of_range h.1 (by omega)]
  · rw [pyLowerChar_of_not_upper h]

theorem head?_dropWhile_false (p : Char → Bool) :
    ∀ (l : List Char) (a : Char), (l.dropWhile p).head? = some a → p a = false := by
  intro l
  induction l with
  | nil => intro a h; simp at h
  | cons c cs ih =>
    intro a h
    by_cases hc : p c = true
    · rw [List.dropWhile_cons_of_pos hc] at h
      exact ih a h
    · rw [List.dropWhile_cons_of_neg hc] at h
      simp at h
      rw [← h]
      simpa using hc

theorem dropWhile_eq_self_of_false (p : Char → Bool) (l : List Char)
    (h : ∀ c ∈ l, p c = false) : l.dropWhile p = l := by
  cases l with
  | nil => rfl
  | cons c cs =>
    exact List.dropWhile_cons_of_neg (by simp [h c (List.mem_cons_self c cs)])

theorem pyStripList_of_no_ws (l : List Char)
    (h : ∀ c ∈ l, pyWhitespace c = false) : pyStripList l = l := by
  unfold pyStripList
  rw [dropWhile_eq_self_of_false pyWhitespace l h,
    dropWhile_eq_self_of_false pyWhitespace l.reverse
      (fun c hc => h c (List.mem_reverse.mp hc)),
    List.reverse_reverse]

theorem mem_of_mem_pyStripList {c : Char} {l : List Char}
    (h : c ∈ pyStripList l) : c ∈ l := by
  unfold pyStripList at h
  rw [List.mem_reverse] at h
  have h1 := (List.dropWhile_sublist pyWhitespace).mem h
  rw [List.mem_reverse] at h1
  exact (List.dropWhile_sublist pyWhitespace).mem h1

/-! ## Structure of the sanitizer output -/

theorem sanitize_parts (s : String) :
    sanitize_resource_id s
      = pyLower (if ((if (pyStrip s).data.head? = some '/' then pyStrip s
                      else "/" ++ pyStrip s)).data.getLast? = some '/'
                 then pyRstripSlash (if (pyStrip s).data.head? = some '/' then pyStrip s
                      else "/" ++ pyStrip s)
                 else (if (pyStrip s).data.head? = some '/' then pyStrip s
                      else "/" ++ pyStrip s)) := rfl

theorem pyRstripSlash_getLast? (t : String) :
    (pyRstripSlash t).data.getLast? ≠ some '/' := by
  intro h
  unfold pyRstripSlash at h
  rw [List.getLast?_reverse] at h
  have := head?_dropWhile_false (· = '/') t.data.reverse '/' h
  simp at this

theorem pyRstripSlash_head? (t : String) (h : (pyRstripSlash t).data ≠ []) :
    (pyRstripSlash t).data.head? = t.data.head? := by
  have hdec : t.data
      = (t.data.reverse.dropWhile (· = '/')).reverse
        ++ (t.data.reverse.takeWhile (· = '/')).reverse := by
    conv_lhs => rw [← List.reverse_reverse t.data,
      ← List.takeWhile_append_dropWhile (p := (· = '/')) (l := t.data.reverse)]
    rw [List.reverse_append]
  conv_rhs => rw [hdec]
  rw [List.head?_append]
  unfold pyRstripSlash at h ⊢
  cases hh : (t.data.reverse.dropWhile (· = '/')).reverse.head? with
  | none => exact absurd (List.head?_eq_none_iff.mp hh) h
  | some a => rfl

/-- C10 counterexample: `sanitize_resource_id "/"` is the empty string
(which does not begin with `/`), and on `"/a /"` the function is not
idempotent — stripping the trailing slash exposes trailing whitespace, so
a second application strips further. -/
theorem sanitize_resource_id_claim_fails :
    (sanitize_resource_id "/").data.head? ≠ some '/' ∧
    sanitize_resource_id (sanitize_resource_id "/a /") ≠ sanitize_resource_id "/a /" :=
  ⟨by decide, by decide⟩

/-- C10 (amended): for every input the result is ASCII-lower-case and has
no trailing `/`; when the result is nonempty it begins with `/` (on inputs
such as `"/"`, whose stripped form is a run of slashes, the result is
empty); and the function is idempotent on every input containing no
whitespace character (a trailing-slash strip can expose trailing
whitespace, which breaks idempotence in general). -/
theorem sanitize_resource_id_shape (s : String) :
    pyLower (sanitize_resource_id s) = sanitize_resource_id s ∧
    (sanitize_resource_id s).data.getLast? ≠ some '/' ∧
    (sanitize_resource_id s ≠ "" → (sanitize_resource_id s).data.head? = some '/') ∧
    ((∀ c ∈ s.data, pyWhitespace c = false) →
      sanitize_resource_id (sanitize_resource_id s) = sanitize_resource_id s) := by
  rw [sanitize_parts s]
  set r2 : String := if (pyStrip s).data.head? = some '/' then pyStrip s
    else "/" ++ pyStrip s with hr2
  set r3 : String := if r2.data.getLast? = some '/' then pyRstripSlash r2 else r2 with hr3
  have hhead2 : r2.data.head? = some '/' := by
    rw [hr2]
    by_cases h : (pyStrip s).data.head? = some '/'
    · rw [if_pos h]; exact h
    · rw [if_neg h]
      simp [String.data_append]
  have hlast3 : r3.data.getLast? ≠ some '/' := by
    rw [hr3]
    by_cases h : r2.data.getLast? = some '/'
    · rw [if_pos h]; exact pyRstripSlash_getLast? r2
    · rw [if_neg h]; exact h
  have hlower : pyLower (pyLower r3) = pyLower r3 := by
    unfold pyLower
    have hmap : List.map pyLowerChar (List.map pyLowerChar r3.data)
        = List.map pyLowerChar r3.data := by
      rw [List.map_map]
      exact List.map_congr_left (fun c _ => pyLowerChar_fix c)
    exact congrArg String.mk hmap
  have hlast : (pyLower r3).data.getLast? ≠ some '/' := by
    unfold pyLower
    intro hcontra
    rw [List.getLast?_map] at hcontra
    cases hg : r3.data.getLast? with
    | none => rw [hg] at hcontra; exact Option.noConfusion hcontra
    | some a =>
      rw [hg] at hcontra
      have hfa : pyLowerChar a = '/' := Option.some.inj hcontra
      have ha : a = '/' := (pyLowerChar_eq_low (by decide)).mp hfa
      exact hlast3 (by rw [hg, ha])
  have hhead : pyLower r3 ≠ "" → (pyLower r3).data.head? = some '/' := by
    intro hne
    have hd : r3.data ≠ [] := by
      intro hnil
      apply hne
      apply String.ext
      simp [pyLower, hnil]
    unfold pyLower
    rw [List.head?_map]
    have hh3 : r3.data.head? = some '/' := by
      rw [hr3]
      by_cases h : r2.data.getLast? = some '/'
      · rw [if_pos h]
        rw [pyRstripSlash_head? r2 (by rw [hr3, if_pos h] at hd; exact hd)]
        exact hhead2
      · rw [if_neg h]; exact hhead2
    rw [hh3]
    rfl
  refine ⟨hlower, hlast, hhead, ?_⟩
  intro hws
  by_cases hempty : pyLower r3 = ""
  · rw [hempty]; rfl
  · have hmem2 : ∀ c ∈ r2.data, pyWhitespace c = false := by
      intro c hc
      rw [hr2] at hc
      by_cases h : (pyStrip s).data.head? = some '/'
      · rw [if_pos h] at hc
        exact hws c (mem_of_mem_pyStripList hc)
      · rw [if_neg h] at hc
        rw [String.data_append] at hc
        rcases List.mem_append.mp hc with hc | hc
        · have : c = '/' := by simpa using hc
          rw [this]; rfl
        · exact hws c (mem_of_mem_pyStripList hc)
    have hmem3 : ∀ c ∈ r3.data, pyWhitespace c = false := by
      intro c hc
      rw [hr3] at hc
      by_cases h : r2.data.getLast? = some '/'
      · rw [if_pos h] at hc
        unfold pyRstripSlash at hc
        rw [List.mem_reverse] at hc
        have h1 := (List.dropWhile_sublist (· = '/')).mem hc
        rw [List.mem_reverse] at h1
        exact hmem2 c h1
      · rw [if_neg h] at hc
        exact hmem2 c hc
    have hmemR : ∀ c ∈ (pyLower r3).data, pyWhitespace c = false := by
      intro c hc
      unfold pyLower at hc
      simp only [List.mem_map] at hc
      obtain ⟨a, ha, hac⟩ := hc
      rw [← hac, pyWhitespace_pyLowerChar]
      exact hmem3 a ha
    rw [sanitize_parts (pyLower r3)]
    have hstrip : pyStrip (pyLower r3) = pyLower r3 := by
      unfold pyStrip
      apply String.ext
      exact pyStripList_of_no_ws _ hmemR
    rw [hstrip, if_pos (hhead hempty), if_neg hlast]
    exact hlower

theorem sanitize_resource_id_shape_witness :
    (sanitize_resource_id "AB").data.head? = some '/' ∧
    sanitize_resource_id (sanitize_resource_id "AB") = sanitize_resource_id "AB" :=
  ⟨(sanitize_resource_id_shape "AB").2.2.1 (by decide),
   (sanitize_resource_id_shape "AB").2.2.2 (by decide)⟩

end AzExt

namespace AzExt

/-- C8: the ISO-time validator accepts exactly the strings that
`datetime.strptime` parses in one of the two formats
`%Y-%m-%dT%H:%M:%S.%fZ` or `%Y-%m-%dT%H:%M:%SZ`; in particular it accepts
`2024-01-01T00:00:00Z` and `2024-01-01T00:00:00.123456Z` and raises
`InvalidArgumentValueError` on `2024-01-01`. -/
theorem validate_iso_time_spec :
    (∀ s : String, _validate_iso_time s = .ok ()
      ↔ (pyStrptimeIso true s = true ∨ pyStrptimeIso false s = true)) ∧
    _validate_iso_time "2024-01-01T00:00:00Z" = .ok () ∧
    _validate_iso_time "2024-01-01T00:00:00.123456Z" = .ok () ∧
    _validate_iso_time "2024-01-01"
      = .error "Invalid time format: '2024-01-01'. Expected ISO 8601 format." := by
  refine ⟨fun s => ?_, rfl, rfl, rfl⟩
  unfold _validate_iso_time
  by_cases h1 : pyStrptimeIso true s <;> by_cases h2 : pyStrptimeIso false s <;>
    simp [h1, h2]

theorem validate_iso_time_spec_witness :
    _validate_iso_time "2024-06-30T23:59:59Z" = .ok () :=
  (validate_iso_time_spec.1 "2024-06-30T23:59:59Z").mpr (Or.inr rfl)

end AzExt

namespace AzExt

/-! ## Newline and suffix analysis of the AKV URL regex -/

theorem any_congr_mem {α : Type} (p q : α → Bool) :
    ∀ l : List α, (∀ x ∈ l, p x = q x) → l.any p = l.any q := by
  intro l
  induction l with
  | nil => intro _; rfl
  | cons a l ih =>
    intro h
    simp only [List.any_cons, h a (List.mem_cons_self a l),
      ih (fun x hx => h x (List.mem_cons_of_mem a hx))]

theorem stripLit_append_nl :
    ∀ (l cs : List Char), '\n' ∉ l →
      stripLit l (cs ++ ['\n']) = (stripLit l cs).map (· ++ ['\n']) := by
  intro l
  induction l with
  | nil => intro cs _; rfl
  | cons c ls ih =>
    intro cs hl
    have hc : c ≠ '\n' := fun he => hl (he ▸ List.mem_cons_self c ls)
    have hls : '\n' ∉ ls := fun hm => hl (List.mem_cons_of_mem c hm)
    cases cs with
    | nil =>
      show stripLit (c :: ls) ['\n'] = Option.map _ none
      simp only [stripLit]
      rw [if_neg (fun he => hc he.symm)]
      rfl
    | cons d ds =>
      show stripLit (c :: ls) (d :: (ds ++ ['\n'])) = _
      simp only [stripLit]
      by_cases hd : d = c
      · simp only [if_pos hd]
        exact ih ds hls
      · simp only [if_neg hd]
        rfl

theorem takeWhile_append_nl (p : Char → Bool) (hp : p '\n' = false) :
    ∀ cs : List Char,
      (cs ++ ['\n']).takeWhile p = cs.takeWhile p ∧
      (cs ++ ['\n']).dropWhile p = cs.dropWhile p ++ ['\n'] := by
  intro cs
  induction cs with
  | nil => simp [List.takeWhile_cons, List.dropWhile_cons, hp]
  | cons c cs ih =>
    by_cases hc : p c = true
    · simp [List.takeWhile_cons, List.dropWhile_cons, hc, ih.1, ih.2]
    · simp [List.takeWhile_cons, List.dropWhile_cons, hc]

theorem runItems_alts_append_nl
    (rest : List RItem)
    (ihrest : ∀ cs : List Char,
      runItems rest (cs ++ ['\n']) = (runItems rest cs).map (· ++ ['\n'])) :
    ∀ (ls : List (List Char)), (∀ l ∈ ls, '\n' ∉ l) →
      ∀ cs : List Char,
        runItems (.alts ls :: rest) (cs ++ ['\n'])
          = (runItems (.alts ls :: rest) cs).map (· ++ ['\n']) := by
  intro ls
  induction ls with
  | nil => intro _ cs; rfl
  | cons l ls' ihl =>
    intro h cs
    have hl : '\n' ∉ l := h l (List.mem_cons_self l ls')
    have hls' : ∀ x ∈ ls', '\n' ∉ x := fun x hx => h x (List.mem_cons_of_mem l hx)
    simp only [runItems, List.flatMap_cons, List.map_append]
    congr 1
    · rw [stripLit_append_nl l cs hl]
      cases hsl : stripLit l cs with
      | none => rfl
      | some cs' => simpa using ihrest cs'
    · have := ihl hls' cs
      simpa only [runItems] using this

theorem runItems_append_nl :
    ∀ (items : List RItem), items.all itemNoNl = true →
      ∀ cs : List Char,
        runItems items (cs ++ ['\n']) = (runItems items cs).map (· ++ ['\n']) := by
  intro items
  induction items with
  | nil => intro _ cs; rfl
  | cons it rest ih =>
    intro hall cs
    have hit : itemNoNl it = true := by
      simp only [List.all_cons, Bool.and_eq_true] at hall
      exact hall.1
    have hrest : rest.all itemNoNl = true := by
      simp only [List.all_cons, Bool.and_eq_true] at hall
      exact hall.2
    cases it with
    | lit l =>
      have hl : '\n' ∉ l := by
        intro hm
        simp only [itemNoNl, List.all_eq_true] at hit
        simpa using hit '\n' hm
      simp only [runItems]
      rw [stripLit_append_nl l cs hl]
      cases hsl : stripLit l cs with
      | none => rfl
      | some cs' => simpa using ih hrest cs'
    | alts ls =>
      have hls : ∀ l ∈ ls, '\n' ∉ l := by
        intro l hl hm
        simp only [itemNoNl, List.all_eq_true] at hit
        simpa using hit l hl '\n' hm
      exact runItems_alts_append_nl rest (ih hrest) ls hls cs
    | crun =>
      simp only [runItems]
      have ht := takeWhile_append_nl akvClassChar (by decide) cs
      rw [ht.1, ht.2]
      by_cases hrun : cs.takeWhile akvClassChar = []
      · simp [hrun]
      · rw [if_neg hrun, if_neg hrun]
        exact ih hrest (cs.dropWhile akvClassChar)

theorem stripLit_suffix :
    ∀ (l cs cs' : List Char), stripLit l cs = some cs' → List.IsSuffix cs' cs := by
  intro l
  induction l with
  | nil =>
    intro cs cs' h
    cases h
    exact List.suffix_refl cs
  | cons c ls ih =>
    intro cs cs' h
    cases cs with
    | nil => cases h
    | cons d ds =>
      by_cases hd : d = c
      · rw [show stripLit (c :: ls) (d :: ds) = stripLit ls ds from by
          simp [stripLit, hd]] at h
        exact (ih ds cs' h).trans (List.suffix_cons d ds)
      · rw [show stripLit (c :: ls) (d :: ds) = none from by
          simp [stripLit, hd]] at h
        cases h

theorem runItems_suffix :
    ∀ (items : List RItem) (cs r : List Char),
      r ∈ runItems items cs → List.IsSuffix r cs := by
  intro items
  induction items with
  | nil =>
    intro cs r h
    simp only [runItems, List.mem_singleton] at h
    exact h ▸ List.suffix_refl cs
  | cons it rest ih =>
    intro cs r h
    cases it with
    | lit l =>
      simp only [runItems] at h
      cases hsl : stripLit l cs with
      | none => simp [hsl] at h
      | some cs' =>
        simp only [hsl] at h
        exact (ih cs' r h).trans (stripLit_suffix l cs cs' hsl)
    | alts ls =>
      simp only [runItems] at h
      rw [List.mem_flatMap] at h
      obtain ⟨l, _, hm⟩ := h
      cases hsl : stripLit l cs with
      | none => simp [hsl] at hm
      | some cs' =>
        simp only [hsl] at hm
        exact (ih cs' r hm).trans (stripLit_suffix l cs cs' hsl)
    | crun =>
      simp only [runItems] at h
      by_cases hrun : cs.takeWhile akvClassChar = []
      · simp [hrun] at h
      · rw [if_neg hrun] at h
        exact (ih _ r h).trans (List.dropWhile_suffix akvClassChar)

theorem specAkvSecretUrl_eq_finals (s : String) :
    specAkvSecretUrl s
      = (akvFinals ["secrets".data] (s.data.map pyLowerChar)).any (fun r => r = []) :=
  rfl

theorem pyDollar_append_nl (r : List Char) :
    pyDollar (r ++ ['\n']) = decide (r = []) := by
  cases r with
  | nil => rfl
  | cons a rs => simp [pyDollar]

theorem pyFoldChar_not_upper (c : Char) :
    ¬(65 ≤ (pyFoldChar c).toNat ∧ (pyFoldChar c).toNat ≤ 90) := by
  unfold pyFoldChar
  by_cases h1 : 65 ≤ c.toNat ∧ c.toNat ≤ 90
  · rw [if_pos h1, charToNat_ofNat (Or.inl (by omega))]
    omega
  · rw [if_neg h1]
    by_cases h2 : c.toNat = 304 ∨ c.toNat = 305
    · rw [if_pos h2]; decide
    · rw [if_neg h2]
      by_cases h3 : c.toNat = 383
      · rw [if_pos h3]; decide
      · rw [if_neg h3]
        by_cases h4 : c.toNat = 8490
        · rw [if_pos h4]; decide
        · rw [if_neg h4]; exact h1

theorem pyLowerChar_pyFoldChar (c : Char) :
    pyLowerChar (pyFoldChar c) = pyFoldChar c :=
  pyLowerChar_of_not_upper (pyFoldChar_not_upper c)

theorem pyFoldChar_eq_low {c d : Char} (hd : d.toNat < 65) :
    pyFoldChar c = d ↔ c = d := by
  constructor
  · intro he
    have ht := congrArg Char.toNat he
    unfold pyFoldChar at ht
    by_cases h1 : 65 ≤ c.toNat ∧ c.toNat ≤ 90
    · rw [if_pos h1, charToNat_ofNat (Or.inl (by omega))] at ht
      omega
    · rw [if_neg h1] at ht
      by_cases h2 : c.toNat = 304 ∨ c.toNat = 305
      · rw [if_pos h2] at ht
        have hi : ('i' : Char).toNat = 105 := rfl
        omega
      · rw [if_neg h2] at ht
        by_cases h3 : c.toNat = 383
        · rw [if_pos h3] at ht
          have hs : ('s' : Char).toNat = 115 := rfl
          omega
        · rw [if_neg h3] at ht
          by_cases h4 : c.toNat = 8490
          · rw [if_pos h4] at ht
            have hk : ('k' : Char).toNat = 107 := rfl
            omega
          · rw [if_neg h4] at ht
            exact char_eq_of_toNat_eq ht
  · intro he
    subst he
    unfold pyFoldChar
    rw [if_neg (by omega), if_neg (by omega), if_neg (by omega), if_neg (by omega)]

theorem specAkvSecretUrl_fold (l : List Char) :
    specAkvSecretUrl ⟨l.map pyFoldChar⟩
      = (akvFinals ["secrets".data] (l.map pyFoldChar)).any (fun r => r = []) := by
  have hdata : (l.map pyFoldChar).map pyLowerChar = l.map pyFoldChar := by
    rw [List.map_map]
    exact List.map_congr_left (fun c _ => pyLowerChar_pyFoldChar c)
  rw [specAkvSecretUrl_eq_finals]
  rw [show ((⟨l.map pyFoldChar⟩ : String).data.map pyLowerChar) = l.map pyFoldChar
    from hdata]

theorem akv_url_matches_spec (v : String) :
    _validate_akv_url v ["secrets".data]
      = (specAkvSecretUrl ⟨v.data.map pyFoldChar⟩
         || ((v.data.getLast? == some '\n')
             && specAkvSecretUrl ⟨(v.data.map pyFoldChar).dropLast⟩)) := by
  have hallA : (akvItems ["secrets".data] ++ [RItem.lit ['/'], RItem.crun]).all itemNoNl
      = true := by decide
  have hallB : (akvItems ["secrets".data]).all itemNoNl = true := by decide
  by_cases hnl : v.data.getLast? = some '\n'
  · have hne : v.data ≠ [] := by
      intro h0; rw [h0] at hnl; cases hnl
    have hlast : v.data.getLast hne = '\n' := by
      have hg := List.getLast?_eq_getLast v.data hne
      rw [hg] at hnl
      exact Option.some.inj hnl
    have hv : v.data.dropLast ++ ['\n'] = v.data := by
      conv_rhs => rw [← List.dropLast_concat_getLast hne]
      rw [hlast]
    have hfold : v.data.map pyFoldChar
        = (v.data.dropLast.map pyFoldChar) ++ ['\n'] := by
      conv_lhs => rw [← hv]
      rw [List.map_append]
      simp [show pyFoldChar '\n' = '\n' from rfl]
    have hdrop : (v.data.map pyFoldChar).dropLast
        = v.data.dropLast.map pyFoldChar := by
      rw [hfold, List.dropLast_concat]
    have hbeq : (v.data.getLast? == some '\n') = true := by
      simp [hnl]
    have hfin : akvFinals ["secrets".data] (v.data.map pyFoldChar)
        = (akvFinals ["secrets".data] (v.data.dropLast.map pyFoldChar)).map
            (· ++ ['\n']) := by
      rw [hfold]
      unfold akvFinals
      rw [runItems_append_nl _ hallA _, runItems_append_nl _ hallB _,
        List.map_append]
    rw [hdrop, specAkvSecretUrl_fold v.data, specAkvSecretUrl_fold v.data.dropLast]
    simp only [_validate_akv_url, hfin, List.any_map, hbeq, Bool.true_and]
    have h1 : (akvFinals ["secrets".data] (v.data.dropLast.map pyFoldChar)).any
        (pyDollar ∘ (· ++ ['\n']))
        = (akvFinals ["secrets".data] (v.data.dropLast.map pyFoldChar)).any
          (fun r => r = []) := by
      apply any_congr_mem
      intro r _
      exact pyDollar_append_nl r
    have h2 : (akvFinals ["secrets".data] (v.data.dropLast.map pyFoldChar)).any
        ((fun r => decide (r = [])) ∘ (· ++ ['\n'])) = false := by
      rw [List.any_eq_false]
      intro r _
      simp
    rw [h1, h2]
    simp
  · have hbeq : (v.data.getLast? == some '\n') = false := by
      simpa using hnl
    have hmem : ∀ r ∈ akvFinals ["secrets".data] (v.data.map pyFoldChar),
        pyDollar r = decide (r = []) := by
      intro r hr
      by_cases hr' : r = ['\n']
      · exfalso
        subst hr'
        have hsuf : List.IsSuffix ['\n'] (v.data.map pyFoldChar) := by
          rcases List.mem_append.mp hr with h | h
        -- both halves of akvFinals are runItems results
          · exact runItems_suffix _ _ _ h
          · exact runItems_suffix _ _ _ h
        obtain ⟨t, ht⟩ := hsuf
        have hlast : (v.data.map pyFoldChar).getLast? = some '\n' := by
          rw [← ht]
          exact List.getLast?_concat t
        rw [List.getLast?_map] at hlast
        cases hg : v.data.getLast? with
        | none => rw [hg] at hlast; cases hlast
        | some a =>
          rw [hg] at hlast
          have hfa : pyFoldChar a = '\n' := Option.some.inj hlast
          have ha : a = '\n' := (pyFoldChar_eq_low (by decide)).mp hfa
          exact hnl (by rw [hg, ha])
      · simp [pyDollar, hr']
    rw [specAkvSecretUrl_fold v.data]
    simp only [_validate_akv_url, hbeq, Bool.false_and, Bool.or_false]
    exact any_congr_mem _ _ _ hmem

/-- C9 counterexample: the secret validator accepts a Key-Vault URL with a
trailing newline (Python `$` matches just before a final newline) and one
whose name is the Kelvin sign K (U+212A), which `re.IGNORECASE` lets match
`[a-zA-Z]`; neither value belongs to the claimed URL grammar, so
acceptance is not exactly the grammar. -/
theorem validate_secret_claim_fails :
    _validate_secret "KEY=https://v.vault.azure.net/secrets/s\n"
      = .ok [("KEY", .akvSecretUri "https://v.vault.azure.net/secrets/s\n")] ∧
    specAkvSecretUrl "https://v.vault.azure.net/secrets/s\n" = false ∧
    _validate_secret "KEY=https://v.vault.azure.net/secrets/\u212A"
      = .ok [("KEY", .akvSecretUri "https://v.vault.azure.net/secrets/\u212A")] ∧
    specAkvSecretUrl "https://v.vault.azure.net/secrets/\u212A" = false :=
  ⟨rfl, rfl, rfl, rfl⟩

/-- C9 (amended): for a secret argument `KEY=value` whose value is not the
unset sentinel, the validator accepts iff the value, folded per Python's
`re.IGNORECASE` (ASCII case folding extended with İ/ı → i, ſ → s, K → k,
the only non-ASCII characters the flag lets match this pattern), matches
the Key-Vault secret URL grammar exactly or after removing a single
trailing newline (Python `$` semantics); otherwise it raises
`InvalidArgumentValueError`. -/
theorem validate_secret_url_pattern (k v : String) (hk : '=' ∉ k.data)
    (hv1 : v ≠ "") (hv2 : v ≠ "null") :
    _validate_secret (k ++ "=" ++ v)
      = (if (specAkvSecretUrl ⟨v.data.map pyFoldChar⟩
             || ((v.data.getLast? == some '\n')
                 && specAkvSecretUrl ⟨(v.data.map pyFoldChar).dropLast⟩)) = true
         then .ok [(k, .akvSecretUri v)]
         else .error ("Invalid Azure Key Vault Secret URL: " ++ v)) := by
  have hdata : (k ++ "=" ++ v).data = k.data ++ '=' :: v.data := by
    simp [String.data_append]
  have hsplit := pySplitOnce_append '=' k.data v.data hk
  have hv1' : v.data ≠ [] := data_ne_nil_of_ne_empty hv1
  have hv2' : v.data ≠ "null".data := data_ne_of_ne hv2
  have hs : (⟨v.data⟩ : String) = v := rfl
  simp only [_validate_secret, hdata, hsplit, hv1', hv2', hs,
    ← akv_url_matches_spec v]
  simp only [List.append_eq_nil, List.cons_ne_self, and_false, if_neg,
    reduceCtorEq]
  by_cases hg : _validate_akv_url v ["secrets".data] = true
  · simp [hg]
  · have hg' : _validate_akv_url v ["secrets".data] = false :=
      Bool.eq_false_iff.mpr hg
    simp [hg']

theorem validate_secret_url_pattern_witness :
    _validate_secret "KEY=https://v.vault.azure.net/secrets/s"
      = .ok [("KEY", .akvSecretUri "https://v.vault.azure.net/secrets/s")] :=
  (validate_secret_url_pattern "KEY" "https://v.vault.azure.net/secrets/s"
    (by decide) (by decide) (by decide)).trans rfl

end AzExt
